import Mathlib

/-!
Actions engine: dispatch, execution and tick timers.

A shallow embedding of `src/src/engine.c` (`HandleSignal`, `ProcessAction`) and
`src/src/timer.c` (`CreateTick`) together with the properties of the
natural-language specification that concern them.

Conventions of the embedding:

* C `int` values are `Int`; where the C code multiplies, the product is wrapped
  to 32 bits two's complement (`wrapInt32`).
* `NULL`-terminated singly linked lists (`pNext` chains) are `List`s kept in
  chain order; a pointer that the code tests against `NULL` is an `Option`.
* The statement executor `ProcessStatement` is external to the engine.  It is a
  parameter: a function of the variable-server handle, the statement and the
  state of the outside world, returning a result code and the new world.
* Every `while` loop is a structurally recursive function over the list it
  walks, carrying the local variables the loop updates.
-/

namespace Engine

/-! ## Result codes and signal numbers -/

/-- Success response, `#define EOK 0` in `actiontypes.h`. -/
def EOK : Int := 0

/-- The value of `ENOENT` in the Linux `errno.h`. -/
def ENOENT : Int := 2

/-- The value of `EINVAL` in the Linux `errno.h`. -/
def EINVAL : Int := 22

/-- Signal numbers that the translated sources use but do not define:
`SIGRTMIN` is supplied by the C library and `TIMER_NOTIFICATION` by `timer.h`. -/
structure SigNums where
  SIGRTMIN : Int
  TIMER_NOTIFICATION : Int
deriving DecidableEq, Repr

/-- Variable change notification, `#define VAR_NOTIFICATION SIGRTMIN+6`. -/
def VAR_NOTIFICATION (k : SigNums) : Int := k.SIGRTMIN + 6

/-- Calculation notification, `#define CALC_NOTIFICATION SIGRTMIN+7`. -/
def CALC_NOTIFICATION (k : SigNums) : Int := k.SIGRTMIN + 7

/-! ## Data model (`actiontypes.h`) -/

/-- The `Signal` structure: one node of an action's `pSignals` chain.  The
`pVariable` pointer is not read by the engine and is left out. -/
structure Signal where
  lineno : Int
  id : Int
deriving DecidableEq, Repr

/-- The `Action` structure, one node of the action chain.  `S` is the type of
statements.  The declaration lists `pDeclarations` and `pSysVars` are not read
by the engine and are left out. -/
structure Action (S : Type) where
  signal : Int
  timerID : Int
  pSignals : List Signal
  pStatements : List S
deriving DecidableEq, Repr

/-- The `Actions` object.  `H` is the type of variable-server handles.  The
strings `filename`, `name` and `description` are not read by the engine and
are left out. -/
structure Actions (H S : Type) where
  hVarServer : H
  verbose : Bool
  output : Bool
  pActionList : List (Action S)
deriving DecidableEq, Repr

/-! ## Observable state of a run -/

/-- One invocation of the execution collaborator: the arguments of
`ProcessStatement( pActions->hVarServer, pStatement )` and the code it gave. -/
structure Call (H S : Type) where
  hVarServer : H
  pStatement : S
  rc : Int
deriving DecidableEq, Repr

/-- What a run of the engine can be observed to do: the state `world` of
everything the statements act on, the actions handed to `ProcessAction` so far
and the calls made to `ProcessStatement` so far, both oldest first. -/
structure Machine (W H S : Type) where
  world : W
  processed : List (Action S)
  calls : List (Call H S)
deriving DecidableEq, Repr

variable {W H S : Type}

/-! ## `ProcessAction` (engine.c 329-352) -/

/-- The `while ( pStatement != NULL )` loop of `ProcessAction`: every statement
is handed to `ProcessStatement`; a code other than `EOK` overwrites `result`. -/
def statementLoop (ProcessStatement : H → S → W → Int × W) (hVarServer : H) :
    List S → Int → Machine W H S → Int × Machine W H S
  | [], result, m => (result, m)
  | pStatement :: pNext, result, m =>
    let out := ProcessStatement hVarServer pStatement m.world
    let rc := out.1
    let m1 : Machine W H S :=
      { world := out.2
        processed := m.processed
        calls := m.calls ++ [{ hVarServer := hVarServer, pStatement := pStatement, rc := rc }] }
    statementLoop ProcessStatement hVarServer pNext (if rc ≠ EOK then rc else result) m1

/-- `ProcessAction( pActions, pAction )`.  `pActions` is dereferenced without a
test, so it is a value; `pAction` is tested against `NULL`. -/
def ProcessAction (ProcessStatement : H → S → W → Int × W) (pActions : Actions H S)
    (pAction : Option (Action S)) (m : Machine W H S) : Int × Machine W H S :=
  match pAction with
  | none => (EINVAL, m)
  | some a =>
    statementLoop ProcessStatement pActions.hVarServer a.pStatements EOK
      { world := m.world, processed := m.processed ++ [a], calls := m.calls }

/-! ## `HandleSignal` (engine.c 228-307) -/

/-- The inner `while( pSignal != NULL )` loop: it walks the whole chain and
sets `found` at every node whose `id` is the received one. -/
def signalLoop (id : Int) : List Signal → Bool → Bool
  | [], found => found
  | pSignal :: pNext, found => signalLoop id pNext (if pSignal.id = id then true else found)

/-- The action loop of the `VAR_NOTIFICATION` / `CALC_NOTIFICATION` branch. -/
def varLoop (ProcessStatement : H → S → W → Int × W) (pActions : Actions H S)
    (signum id : Int) : List (Action S) → Int → Machine W H S → Int × Machine W H S
  | [], result, m => (result, m)
  | pAction :: pNext, result, m =>
    if pAction.signal = signum then
      if signalLoop id pAction.pSignals false then
        let r := ProcessAction ProcessStatement pActions (some pAction) m
        varLoop ProcessStatement pActions signum id pNext r.1 r.2
      else
        varLoop ProcessStatement pActions signum id pNext result m
    else
      varLoop ProcessStatement pActions signum id pNext result m

/-- The action loop of the `TIMER_NOTIFICATION` branch; the `break` ends it. -/
def timerLoop (ProcessStatement : H → S → W → Int × W) (pActions : Actions H S)
    (signum id : Int) : List (Action S) → Int → Machine W H S → Int × Machine W H S
  | [], result, m => (result, m)
  | pAction :: pNext, result, m =>
    if pAction.signal = signum then
      if pAction.timerID = id then
        ProcessAction ProcessStatement pActions (some pAction) m
      else
        timerLoop ProcessStatement pActions signum id pNext result m
    else
      timerLoop ProcessStatement pActions signum id pNext result m

/-- `HandleSignal( pActions, signum, id )`. -/
def HandleSignal (k : SigNums) (ProcessStatement : H → S → W → Int × W)
    (pActions : Option (Actions H S)) (signum id : Int) (m : Machine W H S) :
    Int × Machine W H S :=
  match pActions with
  | none => (EINVAL, m)
  | some acts =>
    if signum = VAR_NOTIFICATION k ∨ signum = CALC_NOTIFICATION k then
      varLoop ProcessStatement acts signum id acts.pActionList ENOENT m
    else if signum = k.TIMER_NOTIFICATION then
      timerLoop ProcessStatement acts signum id acts.pActionList ENOENT m
    else
      (EINVAL, m)

/-! ## Tick timers (`timer.c`) -/

/-- Maximum number of timers allowed, `#define MAX_TIMERS ( 255 )`. -/
def MAX_TIMERS : Int := 255

/-- Modelled from the spec: the `Timescale` enumeration of `timer.h`, a header
that is not among the sources.  It has the six units the specification lists;
`unrecognised` stands for every other value a `Timescale` argument can hold. -/
inductive Timescale where
  | TIMESCALE_eMILLISECONDS
  | TIMESCALE_eSECONDS
  | TIMESCALE_eMINUTES
  | TIMESCALE_eHOURS
  | TIMESCALE_eDAYS
  | TIMESCALE_eWEEKS
  | unrecognised
deriving DecidableEq, Repr

/-- The value of a C `int` expression whose mathematical value is `x`:
two's complement wrap-around to 32 bits. -/
def wrapInt32 (x : Int) : Int := (x + 2147483648) % 4294967296 - 2147483648

/-- The value of `SIGEV_SIGNAL` in the Linux headers. -/
def SIGEV_SIGNAL : Int := 0

/-- The value of `CLOCK_REALTIME` in the Linux headers. -/
def CLOCK_REALTIME : Int := 0

/-- The part of `struct sigevent` that `CreateTick` fills in. -/
structure SigEvent where
  sigev_notify : Int
  sigev_signo : Int
  sival_int : Int
deriving DecidableEq, Repr

/-- A `struct timespec`. -/
structure TimeSpec where
  tv_sec : Int
  tv_nsec : Int
deriving DecidableEq, Repr

/-- A `struct itimerspec`: repeat period and delay of the first firing. -/
structure ITimerSpec where
  it_interval : TimeSpec
  it_value : TimeSpec
deriving DecidableEq, Repr

/-- An operating-system timer as `CreateTick` sets it up: the clock and event
given to `timer_create` and the setting given to `timer_settime`. -/
structure OsTimer where
  clockid : Int
  te : SigEvent
  its : ITimerSpec
deriving DecidableEq, Repr

/-- The file-scoped variables of `timer.c`: the counter `id` and the table
`timers`, each slot holding the timer created into it, if any. -/
structure TimerState where
  id : Int
  timers : List (Option OsTimer)
deriving DecidableEq, Repr

/-- The state at program start: `id = 0` and `timers` zero-filled. -/
def TimerState.fresh : TimerState :=
  { id := 0, timers := List.replicate 255 none }

/-- The `switch ( ts )` of `CreateTick`: the pair `(secs, msecs)` it leaves in
the two locals, both initialised to zero.  `/` and `%` truncate toward zero. -/
def tickInterval (num : Int) : Timescale → Int × Int
  | Timescale.TIMESCALE_eMILLISECONDS => (Int.tdiv num 1000, Int.tmod num 1000)
  | Timescale.TIMESCALE_eSECONDS => (num, 0)
  | Timescale.TIMESCALE_eMINUTES => (wrapInt32 (num * 60), 0)
  | Timescale.TIMESCALE_eHOURS => (wrapInt32 (num * 3600), 0)
  | Timescale.TIMESCALE_eDAYS => (wrapInt32 (num * 86400), 0)
  | Timescale.TIMESCALE_eWEEKS => (wrapInt32 (wrapInt32 (num * 86400) * 7), 0)
  | Timescale.unrecognised => (0, 0)

/-- `CreateTick( num, ts )` as a function of the file-scoped state: the value
returned and the state left behind. -/
def CreateTick (k : SigNums) (num : Int) (ts : Timescale) (st : TimerState) :
    Int × TimerState :=
  if st.id + 1 < MAX_TIMERS then
    let id := st.id + 1
    let secs := (tickInterval num ts).1
    let msecs := (tickInterval num ts).2
    if secs ≠ 0 ∨ msecs ≠ 0 then
      let te : SigEvent :=
        { sigev_notify := SIGEV_SIGNAL, sigev_signo := k.TIMER_NOTIFICATION, sival_int := id }
      let its : ITimerSpec :=
        { it_interval := { tv_sec := secs, tv_nsec := msecs * 1000000 }
          it_value := { tv_sec := secs, tv_nsec := msecs * 1000000 } }
      let timer : OsTimer := { clockid := CLOCK_REALTIME, te := te, its := its }
      (id, { id := id, timers := st.timers.set id.toNat (some timer) })
    else
      (-1, { id := id, timers := st.timers })
  else
    (-1, st)

/-- A sequence of `CreateTick` calls made one after the other: the values
returned, in call order, and the final state. -/
def createTicks (k : SigNums) : List (Int × Timescale) → TimerState → List Int × TimerState
  | [], st => ([], st)
  | call :: rest, st =>
    let r := CreateTick k call.1 call.2 st
    let rs := createTicks k rest r.2
    (r.1 :: rs.1, rs.2)

/-! ## Vocabulary of the specification -/

/-- A trigger is bound to the variable `id` under the class `signum`: its class
is `signum` and one of its bindings names `id`. -/
def boundTo (signum id : Int) (a : Action S) : Bool :=
  decide (a.signal = signum) && a.pSignals.any (fun s => decide (s.id = id))

/-- A trigger is the timer trigger of `id`: its class is `signum` (the timer
class) and its timer identifier is `id`. -/
def onTimer (signum id : Int) (a : Action S) : Bool :=
  decide (a.signal = signum) && decide (a.timerID = id)

/-- The code of the last call that did not give `EOK`, or `EOK` if none. -/
def lastFailure (codes : List Int) : Int :=
  ((codes.filter (fun c => decide (c ≠ EOK))).getLast?).getD EOK

/-- A machine on which nothing has run yet. -/
def Machine.start (w : W) : Machine W H S :=
  { world := w, processed := [], calls := [] }

/-- A collaborator whose statements are their own result codes: the statement
`c` gives the code `c` and leaves the world alone. -/
def codeStatement : Unit → Int → Unit → Int × Unit :=
  fun _ c w => (c, w)

/-- The interval `CreateTick( num, ts )` computes: whole seconds and the
nanoseconds it passes to `timer_settime`. -/
def computedInterval (num : Int) (ts : Timescale) : TimeSpec :=
  { tv_sec := (tickInterval num ts).1, tv_nsec := (tickInterval num ts).2 * 1000000 }

/-- The values returned by the successful calls of a sequence, in call order. -/
def successes (results : List Int) : List Int :=
  results.filter (fun r => decide (r ≠ -1))

/-- The example registry of the specification: trigger A of class
variable-change bound to variable 42, trigger B of class timer on timer 3.
Statements are result codes (see `codeStatement`). -/
def exampleActions (k : SigNums) : Actions Unit Int :=
  { hVarServer := ()
    verbose := false
    output := false
    pActionList :=
      [ { signal := VAR_NOTIFICATION k, timerID := 0,
          pSignals := [{ lineno := 1, id := 42 }], pStatements := [0] },
        { signal := k.TIMER_NOTIFICATION, timerID := 3,
          pSignals := [], pStatements := [0] } ] }

/-- Signal numbers of a Linux system with `SIGRTMIN = 34`, the timer
notification on `SIGRTMIN+5`. -/
def linuxSigNums : SigNums := { SIGRTMIN := 34, TIMER_NOTIFICATION := 39 }

/-- A registry with overlapping bindings: A (variable-change) names variable 42
twice, B (variable-change) names 7, C (variable-change) names 7 and 42,
D (calc-request) names 42, E and F are both timer triggers of timer 42. -/
def overlapActions (k : SigNums) : Actions Unit Int :=
  { hVarServer := ()
    verbose := false
    output := false
    pActionList :=
      [ { signal := VAR_NOTIFICATION k, timerID := 0,
          pSignals := [{ lineno := 1, id := 42 }, { lineno := 1, id := 42 }],
          pStatements := [0] },
        { signal := VAR_NOTIFICATION k, timerID := 0,
          pSignals := [{ lineno := 2, id := 7 }], pStatements := [0] },
        { signal := VAR_NOTIFICATION k, timerID := 0,
          pSignals := [{ lineno := 3, id := 7 }, { lineno := 3, id := 42 }],
          pStatements := [0, 0] },
        { signal := CALC_NOTIFICATION k, timerID := 0,
          pSignals := [{ lineno := 4, id := 42 }], pStatements := [0] },
        { signal := k.TIMER_NOTIFICATION, timerID := 42, pSignals := [], pStatements := [0] },
        { signal := k.TIMER_NOTIFICATION, timerID := 42, pSignals := [], pStatements := [9] } ] }

/-- A registry whose only trigger is bound to variable 42 and whose only
statement fails with code 5. -/
def failingActions (k : SigNums) : Actions Unit Int :=
  { hVarServer := ()
    verbose := false
    output := false
    pActionList :=
      [ { signal := VAR_NOTIFICATION k, timerID := 0,
          pSignals := [{ lineno := 1, id := 42 }], pStatements := [5] } ] }

/-- The state of the timer manager after the given calls, made one after the
other from program start. -/
def stateAfter (k : SigNums) (calls : List (Int × Timescale)) : TimerState :=
  (createTicks k calls TimerState.fresh).2

/-- The values returned by the given calls, made one after the other from
program start. -/
def resultsOf (k : SigNums) (calls : List (Int × Timescale)) : List Int :=
  (createTicks k calls TimerState.fresh).1

/-- The factor by which `CreateTick` multiplies the count in `int` arithmetic
for each unit; milliseconds and seconds are not multiplied. -/
def unitFactor : Timescale → Int
  | Timescale.TIMESCALE_eMILLISECONDS => 1
  | Timescale.TIMESCALE_eSECONDS => 1
  | Timescale.TIMESCALE_eMINUTES => 60
  | Timescale.TIMESCALE_eHOURS => 3600
  | Timescale.TIMESCALE_eDAYS => 86400
  | Timescale.TIMESCALE_eWEEKS => 604800
  | Timescale.unrecognised => 0

/-- The length of one unit in nanoseconds. -/
def nanosPerUnit : Timescale → Int
  | Timescale.TIMESCALE_eMILLISECONDS => 1000000
  | Timescale.TIMESCALE_eSECONDS => 1000000000
  | Timescale.TIMESCALE_eMINUTES => 60 * 1000000000
  | Timescale.TIMESCALE_eHOURS => 3600 * 1000000000
  | Timescale.TIMESCALE_eDAYS => 86400 * 1000000000
  | Timescale.TIMESCALE_eWEEKS => 604800 * 1000000000
  | Timescale.unrecognised => 0

/-- The interval as the specification words it: milliseconds give
`count div 1000` seconds and `(count mod 1000) * 1,000,000` nanoseconds, the
other units give `factor * count` seconds and no nanoseconds, an unrecognised
unit gives the zero interval. -/
def specInterval (count : Int) : Timescale → TimeSpec
  | Timescale.TIMESCALE_eMILLISECONDS =>
    { tv_sec := count / 1000, tv_nsec := (count % 1000) * 1000000 }
  | Timescale.TIMESCALE_eSECONDS => { tv_sec := count, tv_nsec := 0 }
  | Timescale.TIMESCALE_eMINUTES => { tv_sec := 60 * count, tv_nsec := 0 }
  | Timescale.TIMESCALE_eHOURS => { tv_sec := 3600 * count, tv_nsec := 0 }
  | Timescale.TIMESCALE_eDAYS => { tv_sec := 86400 * count, tv_nsec := 0 }
  | Timescale.TIMESCALE_eWEEKS => { tv_sec := 604800 * count, tv_nsec := 0 }
  | Timescale.unrecognised => { tv_sec := 0, tv_nsec := 0 }

/-- Two triggers bound to variable 42: the first has a statement failing with
code 5, the second has one succeeding statement. -/
def maskedFailureActions (k : SigNums) : Actions Unit Int :=
  { hVarServer := ()
    verbose := false
    output := false
    pActionList :=
      [ { signal := VAR_NOTIFICATION k, timerID := 0,
          pSignals := [{ lineno := 1, id := 42 }], pStatements := [5] },
        { signal := VAR_NOTIFICATION k, timerID := 0,
          pSignals := [{ lineno := 2, id := 42 }], pStatements := [0] } ] }

/-- Two triggers bound to variable 42: the first has one succeeding statement,
the second has a statement failing with code 7. -/
def lastFailsActions (k : SigNums) : Actions Unit Int :=
  { hVarServer := ()
    verbose := false
    output := false
    pActionList :=
      [ { signal := VAR_NOTIFICATION k, timerID := 0,
          pSignals := [{ lineno := 1, id := 42 }], pStatements := [0] },
        { signal := VAR_NOTIFICATION k, timerID := 0,
          pSignals := [{ lineno := 2, id := 42 }], pStatements := [7] } ] }

/-- A collaborator whose result depends on the state of the world: the
statement `c` run in the world `w` gives the code `c * w` and leaves the world
alone. -/
def scaledStatement : Unit → Int → Int → Int × Int :=
  fun _ c w => (c * w, w)

/-! ## Lemmas on the executor -/

theorem getLast?_cons_getD (a d : Int) (l : List Int) :
    ((a :: l).getLast?).getD d = (l.getLast?).getD a := by
  cases l with
  | nil => simp
  | cons b t =>
    rw [List.getLast?_cons_cons]
    cases hx : (b :: t).getLast? with
    | none => simp at hx
    | some x => rfl

theorem statementLoop_spec (PS : H → S → W → Int × W) (h : H) (l : List S) :
    ∀ (r0 : Int) (m : Machine W H S),
      ∃ cs : List (Call H S),
        (statementLoop PS h l r0 m).2.calls = m.calls ++ cs ∧
        cs.map (fun c => (c.hVarServer, c.pStatement)) = l.map (fun s => (h, s)) ∧
        (statementLoop PS h l r0 m).1
          = (((cs.map (fun c => c.rc)).filter (fun c => decide (c ≠ EOK))).getLast?).getD r0 ∧
        (statementLoop PS h l r0 m).2.processed = m.processed := by
  induction l with
  | nil => intro r0 m; exact ⟨[], by simp [statementLoop]⟩
  | cons s rest ih =>
    intro r0 m
    obtain ⟨cs, h1, h2, h3, h4⟩ := ih (if (PS h s m.world).1 ≠ EOK then (PS h s m.world).1 else r0)
      { world := (PS h s m.world).2
        processed := m.processed
        calls := m.calls ++ [{ hVarServer := h, pStatement := s, rc := (PS h s m.world).1 }] }
    refine ⟨{ hVarServer := h, pStatement := s, rc := (PS h s m.world).1 } :: cs, ?_, ?_, ?_, ?_⟩
    · simp only [statementLoop]; rw [h1]; simp
    · simp [h2]
    · simp only [statementLoop]; rw [h3]
      by_cases hc : (PS h s m.world).1 = EOK
      · simp [hc]
      · simp only [List.map_cons, ne_eq, hc, not_false_eq_true, decide_True, List.filter_cons_of_pos,
          if_true]
        rw [getLast?_cons_getD]
    · simp only [statementLoop]; rw [h4]

theorem ProcessAction_processed (PS : H → S → W → Int × W) (acts : Actions H S)
    (a : Action S) (m : Machine W H S) :
    (ProcessAction PS acts (some a) m).2.processed = m.processed ++ [a] := by
  obtain ⟨cs, -, -, -, h4⟩ := statementLoop_spec PS acts.hVarServer a.pStatements EOK
    { world := m.world, processed := m.processed ++ [a], calls := m.calls }
  simpa [ProcessAction] using h4

theorem ProcessAction_spec (PS : H → S → W → Int × W) (acts : Actions H S)
    (a : Action S) (m : Machine W H S) :
    ∃ cs : List (Call H S),
      (ProcessAction PS acts (some a) m).2.calls = m.calls ++ cs ∧
      cs.map (fun c => (c.hVarServer, c.pStatement))
        = a.pStatements.map (fun s => (acts.hVarServer, s)) ∧
      (ProcessAction PS acts (some a) m).1 = lastFailure (cs.map (fun c => c.rc)) := by
  obtain ⟨cs, h1, h2, h3, -⟩ := statementLoop_spec PS acts.hVarServer a.pStatements EOK
    { world := m.world, processed := m.processed ++ [a], calls := m.calls }
  exact ⟨cs, by simpa [ProcessAction] using h1, h2, by simpa [ProcessAction, lastFailure] using h3⟩

/-! ## Lemmas on the dispatcher -/

theorem signalLoop_eq_any (id : Int) (l : List Signal) :
    ∀ found : Bool, signalLoop id l found = (found || l.any (fun s => decide (s.id = id))) := by
  induction l with
  | nil => intro found; simp [signalLoop]
  | cons s rest ih =>
    intro found
    simp only [signalLoop, ih, List.any_cons]
    by_cases hs : s.id = id
    · simp [hs]
    · simp [hs]

theorem varLoop_cons_match (PS : H → S → W → Int × W) (acts : Actions H S) (signum id : Int)
    (a : Action S) (rest : List (Action S)) (r0 : Int) (m : Machine W H S)
    (ha : boundTo signum id a = true) :
    varLoop PS acts signum id (a :: rest) r0 m
      = varLoop PS acts signum id rest (ProcessAction PS acts (some a) m).1
          (ProcessAction PS acts (some a) m).2 := by
  simp only [boundTo, Bool.and_eq_true, decide_eq_true_eq] at ha
  simp [varLoop, ha.1, signalLoop_eq_any, ha.2]

theorem varLoop_cons_skip (PS : H → S → W → Int × W) (acts : Actions H S) (signum id : Int)
    (a : Action S) (rest : List (Action S)) (r0 : Int) (m : Machine W H S)
    (ha : boundTo signum id a = false) :
    varLoop PS acts signum id (a :: rest) r0 m = varLoop PS acts signum id rest r0 m := by
  by_cases hs : a.signal = signum
  · have hany : (a.pSignals.any fun s => decide (s.id = id)) = false := by
      simpa [boundTo, hs] using ha
    simp [varLoop, hs, signalLoop_eq_any, hany]
  · simp [varLoop, hs]

theorem timerLoop_cons_match (PS : H → S → W → Int × W) (acts : Actions H S) (signum id : Int)
    (a : Action S) (rest : List (Action S)) (r0 : Int) (m : Machine W H S)
    (ha : onTimer signum id a = true) :
    timerLoop PS acts signum id (a :: rest) r0 m = ProcessAction PS acts (some a) m := by
  simp only [onTimer, Bool.and_eq_true, decide_eq_true_eq] at ha
  simp [timerLoop, ha.1, ha.2]

theorem timerLoop_cons_skip (PS : H → S → W → Int × W) (acts : Actions H S) (signum id : Int)
    (a : Action S) (rest : List (Action S)) (r0 : Int) (m : Machine W H S)
    (ha : onTimer signum id a = false) :
    timerLoop PS acts signum id (a :: rest) r0 m = timerLoop PS acts signum id rest r0 m := by
  by_cases hs : a.signal = signum
  · have ht : ¬ a.timerID = id := by simpa [onTimer, hs] using ha
    simp [timerLoop, hs, ht]
  · simp [timerLoop, hs]

theorem varLoop_processed (PS : H → S → W → Int × W) (acts : Actions H S) (signum id : Int)
    (l : List (Action S)) :
    ∀ (r0 : Int) (m : Machine W H S),
      (varLoop PS acts signum id l r0 m).2.processed
        = m.processed ++ l.filter (boundTo signum id) := by
  induction l with
  | nil => intro r0 m; simp [varLoop]
  | cons a rest ih =>
    intro r0 m
    cases ha : boundTo signum id a with
    | true =>
      rw [varLoop_cons_match PS acts signum id a rest r0 m ha, ih, ProcessAction_processed]
      simp [List.filter_cons, ha]
    | false =>
      rw [varLoop_cons_skip PS acts signum id a rest r0 m ha, ih]
      simp [List.filter_cons, ha]

theorem timerLoop_processed (PS : H → S → W → Int × W) (acts : Actions H S) (signum id : Int)
    (l : List (Action S)) :
    ∀ (r0 : Int) (m : Machine W H S),
      (timerLoop PS acts signum id l r0 m).2.processed
        = m.processed ++ (l.find? (onTimer signum id)).toList := by
  induction l with
  | nil => intro r0 m; simp [timerLoop]
  | cons a rest ih =>
    intro r0 m
    cases ha : onTimer signum id a with
    | true =>
      rw [timerLoop_cons_match PS acts signum id a rest r0 m ha, ProcessAction_processed]
      simp [List.find?_cons, ha]
    | false =>
      rw [timerLoop_cons_skip PS acts signum id a rest r0 m ha, ih]
      simp [List.find?_cons, ha]

theorem varLoop_no_match (PS : H → S → W → Int × W) (acts : Actions H S) (signum id : Int)
    (l : List (Action S)) (hl : ∀ a ∈ l, boundTo signum id a = false) :
    ∀ (r0 : Int) (m : Machine W H S), varLoop PS acts signum id l r0 m = (r0, m) := by
  induction l with
  | nil => intro r0 m; simp [varLoop]
  | cons a rest ih =>
    intro r0 m
    rw [varLoop_cons_skip PS acts signum id a rest r0 m (hl a (List.mem_cons_self a rest))]
    exact ih (fun b hb => hl b (List.mem_cons_of_mem a hb)) r0 m

theorem timerLoop_no_match (PS : H → S → W → Int × W) (acts : Actions H S) (signum id : Int)
    (l : List (Action S)) (hl : ∀ a ∈ l, onTimer signum id a = false) :
    ∀ (r0 : Int) (m : Machine W H S), timerLoop PS acts signum id l r0 m = (r0, m) := by
  induction l with
  | nil => intro r0 m; simp [timerLoop]
  | cons a rest ih =>
    intro r0 m
    rw [timerLoop_cons_skip PS acts signum id a rest r0 m (hl a (List.mem_cons_self a rest))]
    exact ih (fun b hb => hl b (List.mem_cons_of_mem a hb)) r0 m

/-- The result of the variable/calc loop is the result `ProcessAction` gave for
the last bound trigger of the list, on the machine that trigger was run on. -/
theorem varLoop_result_last (PS : H → S → W → Int × W) (acts : Actions H S) (signum id : Int)
    (last : Action S) (l : List (Action S)) :
    ∀ (r0 : Int) (m : Machine W H S),
      (l.filter (boundTo signum id)).getLast? = some last →
      ∃ m1 : Machine W H S,
        (varLoop PS acts signum id l r0 m).1 = (ProcessAction PS acts (some last) m1).1 := by
  induction l with
  | nil => intro r0 m hlast; simp at hlast
  | cons a rest ih =>
    intro r0 m hlast
    cases ha : boundTo signum id a with
    | true =>
      rw [varLoop_cons_match PS acts signum id a rest r0 m ha]
      cases hrest : rest.filter (boundTo signum id) with
      | nil =>
        have hnone : ∀ b ∈ rest, boundTo signum id b = false := by
          intro b hb
          cases hbb : boundTo signum id b with
          | false => rfl
          | true =>
            have : b ∈ rest.filter (boundTo signum id) := List.mem_filter.mpr ⟨hb, hbb⟩
            rw [hrest] at this
            simp at this
        rw [varLoop_no_match PS acts signum id rest hnone]
        have : a = last := by simpa [List.filter_cons, ha, hrest] using hlast
        exact ⟨m, by rw [this]⟩
      | cons b t =>
        apply ih
        rw [List.filter_cons, if_pos ha, hrest, List.getLast?_cons_cons] at hlast
        rw [hrest]; exact hlast
    | false =>
      rw [varLoop_cons_skip PS acts signum id a rest r0 m ha]
      apply ih
      simpa [List.filter_cons, ha] using hlast

/-- The variable/calc loop does, as a whole, what `ProcessAction` does for the
last bound trigger of the list on the machine that trigger is run on. -/
theorem varLoop_eq_last (PS : H → S → W → Int × W) (acts : Actions H S) (signum id : Int)
    (last : Action S) (l : List (Action S)) :
    ∀ (r0 : Int) (m : Machine W H S),
      (l.filter (boundTo signum id)).getLast? = some last →
      ∃ m1 : Machine W H S,
        varLoop PS acts signum id l r0 m = ProcessAction PS acts (some last) m1 := by
  induction l with
  | nil => intro r0 m hlast; simp at hlast
  | cons a rest ih =>
    intro r0 m hlast
    cases ha : boundTo signum id a with
    | true =>
      rw [varLoop_cons_match PS acts signum id a rest r0 m ha]
      cases hrest : rest.filter (boundTo signum id) with
      | nil =>
        have hnone : ∀ b ∈ rest, boundTo signum id b = false := by
          intro b hb
          cases hbb : boundTo signum id b with
          | false => rfl
          | true =>
            have : b ∈ rest.filter (boundTo signum id) := List.mem_filter.mpr ⟨hb, hbb⟩
            rw [hrest] at this
            simp at this
        rw [varLoop_no_match PS acts signum id rest hnone]
        have : a = last := by simpa [List.filter_cons, ha, hrest] using hlast
        exact ⟨m, by rw [this]⟩
      | cons b t =>
        apply ih
        rw [List.filter_cons, if_pos ha, hrest, List.getLast?_cons_cons] at hlast
        rw [hrest]; exact hlast
    | false =>
      rw [varLoop_cons_skip PS acts signum id a rest r0 m ha]
      apply ih
      simpa [List.filter_cons, ha] using hlast

theorem ProcessAction_all_EOK (PS : H → S → W → Int × W) (acts : Actions H S)
    (a : Action S) (m : Machine W H S)
    (hok : ∀ s ∈ a.pStatements, ∀ w : W, (PS acts.hVarServer s w).1 = EOK) :
    (ProcessAction PS acts (some a) m).1 = EOK := by
  have key : ∀ (l : List S), (∀ s ∈ l, ∀ w : W, (PS acts.hVarServer s w).1 = EOK) →
      ∀ m0 : Machine W H S, (statementLoop PS acts.hVarServer l EOK m0).1 = EOK := by
    intro l
    induction l with
    | nil => intro _ m0; simp [statementLoop]
    | cons s rest ih =>
      intro hl m0
      simp only [statementLoop]
      rw [if_neg (by simp [hl s (List.mem_cons_self s rest) m0.world])]
      exact ih (fun t ht => hl t (List.mem_cons_of_mem s ht)) _
  simpa [ProcessAction] using key a.pStatements hok _

/-! ## Dispatch of variable-change and calc-request notifications -/

/-- C1: on a variable-change or calc-request notification with payload `id`,
the triggers `HandleSignal` hands to `ProcessAction` are exactly the triggers
of the registry whose class is the notification's and that have a binding to
`id`, in definition order, each one once. -/
theorem HandleSignal_var_calc_processed (k : SigNums) (PS : H → S → W → Int × W)
    (acts : Actions H S) (signum id : Int) (m : Machine W H S)
    (hclass : signum = VAR_NOTIFICATION k ∨ signum = CALC_NOTIFICATION k) :
    (HandleSignal k PS (some acts) signum id m).2.processed
      = m.processed ++ acts.pActionList.filter (boundTo signum id) := by
  simp only [HandleSignal, if_pos hclass]
  exact varLoop_processed PS acts signum id acts.pActionList ENOENT m

theorem HandleSignal_var_calc_processed_witness :
    (VAR_NOTIFICATION linuxSigNums = VAR_NOTIFICATION linuxSigNums
      ∨ VAR_NOTIFICATION linuxSigNums = CALC_NOTIFICATION linuxSigNums) ∧
    (HandleSignal linuxSigNums codeStatement (some (overlapActions linuxSigNums))
        (VAR_NOTIFICATION linuxSigNums) 42 (Machine.start ())).2.processed
      = (Machine.start () : Machine Unit Unit Int).processed
          ++ (overlapActions linuxSigNums).pActionList.filter
              (boundTo (VAR_NOTIFICATION linuxSigNums) 42) ∧
    (overlapActions linuxSigNums).pActionList.filter (boundTo (VAR_NOTIFICATION linuxSigNums) 42)
      = [ { signal := 40, timerID := 0,
            pSignals := [{ lineno := 1, id := 42 }, { lineno := 1, id := 42 }],
            pStatements := [0] },
          { signal := 40, timerID := 0,
            pSignals := [{ lineno := 3, id := 7 }, { lineno := 3, id := 42 }],
            pStatements := [0, 0] } ] :=
  ⟨Or.inl rfl,
   HandleSignal_var_calc_processed linuxSigNums codeStatement (overlapActions linuxSigNums)
     (VAR_NOTIFICATION linuxSigNums) 42 (Machine.start ()) (Or.inl rfl),
   by decide⟩

/-! ## Dispatch of timer notifications -/

/-- C2: on a timer notification with payload `id`, `HandleSignal` does what
`ProcessAction` does on the first trigger, in definition order, whose class is
timer and whose timer identifier is `id`, and on nothing else; if there is no
such trigger it runs nothing and gives `ENOENT`.  So at most one trigger is
handed to `ProcessAction`. -/
theorem HandleSignal_timer_first_only (k : SigNums) (PS : H → S → W → Int × W)
    (acts : Actions H S) (id : Int) (m : Machine W H S)
    (hvar : k.TIMER_NOTIFICATION ≠ VAR_NOTIFICATION k)
    (hcalc : k.TIMER_NOTIFICATION ≠ CALC_NOTIFICATION k) :
    HandleSignal k PS (some acts) k.TIMER_NOTIFICATION id m
      = (match acts.pActionList.find? (onTimer k.TIMER_NOTIFICATION id) with
         | some first => ProcessAction PS acts (some first) m
         | none => (ENOENT, m)) ∧
    (HandleSignal k PS (some acts) k.TIMER_NOTIFICATION id m).2.processed
      = m.processed ++ (acts.pActionList.find? (onTimer k.TIMER_NOTIFICATION id)).toList := by
  have hno : ¬ (k.TIMER_NOTIFICATION = VAR_NOTIFICATION k
      ∨ k.TIMER_NOTIFICATION = CALC_NOTIFICATION k) := by
    rintro (h | h)
    · exact hvar h
    · exact hcalc h
  have key : ∀ (l : List (Action S)) (r0 : Int),
      timerLoop PS acts k.TIMER_NOTIFICATION id l r0 m
        = (match l.find? (onTimer k.TIMER_NOTIFICATION id) with
           | some first => ProcessAction PS acts (some first) m
           | none => (r0, m)) := by
    intro l
    induction l with
    | nil => intro r0; simp [timerLoop]
    | cons a rest ih =>
      intro r0
      cases ha : onTimer k.TIMER_NOTIFICATION id a with
      | true =>
        rw [timerLoop_cons_match PS acts _ id a rest r0 m ha]
        simp [List.find?_cons, ha]
      | false =>
        rw [timerLoop_cons_skip PS acts _ id a rest r0 m ha, ih]
        simp [List.find?_cons, ha]
  constructor
  · simp only [HandleSignal, if_neg hno, if_true]
    exact key acts.pActionList ENOENT
  · simp only [HandleSignal, if_neg hno, if_true]
    exact timerLoop_processed PS acts _ id acts.pActionList ENOENT m

theorem HandleSignal_timer_first_only_witness :
    (linuxSigNums.TIMER_NOTIFICATION ≠ VAR_NOTIFICATION linuxSigNums) ∧
    (linuxSigNums.TIMER_NOTIFICATION ≠ CALC_NOTIFICATION linuxSigNums) ∧
    (HandleSignal linuxSigNums codeStatement (some (overlapActions linuxSigNums))
        linuxSigNums.TIMER_NOTIFICATION 42 (Machine.start ())
      = (match (overlapActions linuxSigNums).pActionList.find?
            (onTimer linuxSigNums.TIMER_NOTIFICATION 42) with
         | some first =>
           ProcessAction codeStatement (overlapActions linuxSigNums) (some first)
             (Machine.start ())
         | none => (ENOENT, Machine.start ())) ∧
     (HandleSignal linuxSigNums codeStatement (some (overlapActions linuxSigNums))
        linuxSigNums.TIMER_NOTIFICATION 42 (Machine.start ())).2.processed
      = (Machine.start () : Machine Unit Unit Int).processed
          ++ ((overlapActions linuxSigNums).pActionList.find?
                (onTimer linuxSigNums.TIMER_NOTIFICATION 42)).toList) ∧
    ((overlapActions linuxSigNums).pActionList.find?
        (onTimer linuxSigNums.TIMER_NOTIFICATION 42)).toList
      = [{ signal := 39, timerID := 42, pSignals := [], pStatements := [0] }] :=
  ⟨by decide, by decide,
   HandleSignal_timer_first_only linuxSigNums codeStatement (overlapActions linuxSigNums) 42
     (Machine.start ()) (by decide) (by decide),
   by decide⟩

/-! ## Overall result of a dispatch -/

/-- C3, as stated, fails: the only trigger of `failingActions` is bound to
variable 42, so the notification (variable-change, 42) matches it, and the
result of `HandleSignal` is the code 5 of its failing statement, not `EOK`. -/
theorem matched_trigger_failure_is_returned :
    (∃ a ∈ (failingActions linuxSigNums).pActionList,
        boundTo (VAR_NOTIFICATION linuxSigNums) 42 a = true) ∧
    (HandleSignal linuxSigNums codeStatement (some (failingActions linuxSigNums))
        (VAR_NOTIFICATION linuxSigNums) 42 (Machine.start ())).1 = 5 ∧
    (5 : Int) ≠ EOK := by
  decide

/-- C3, amended: on a variable-change or calc-request notification that at
least one trigger matches, the last calls of the run are the calls on the
statements of the last matching trigger, in definition order, and the result
of `HandleSignal` is `EOK` provided every one of these calls returned `EOK`
in this run. -/
theorem HandleSignal_EOK_of_last_match_ok (k : SigNums) (PS : H → S → W → Int × W)
    (acts : Actions H S) (signum id : Int) (m : Machine W H S) (last : Action S)
    (hclass : signum = VAR_NOTIFICATION k ∨ signum = CALC_NOTIFICATION k)
    (hlast : (acts.pActionList.filter (boundTo signum id)).getLast? = some last)
    (hok : ∀ c ∈ (HandleSignal k PS (some acts) signum id m).2.calls.drop
        ((HandleSignal k PS (some acts) signum id m).2.calls.length
          - last.pStatements.length), c.rc = EOK) :
    ((HandleSignal k PS (some acts) signum id m).2.calls.drop
        ((HandleSignal k PS (some acts) signum id m).2.calls.length
          - last.pStatements.length)).map (fun c => (c.hVarServer, c.pStatement))
      = last.pStatements.map (fun s => (acts.hVarServer, s)) ∧
    (HandleSignal k PS (some acts) signum id m).1 = EOK := by
  simp only [HandleSignal, if_pos hclass] at hok ⊢
  obtain ⟨m1, hm1⟩ := varLoop_eq_last PS acts signum id last acts.pActionList ENOENT m hlast
  rw [hm1] at hok ⊢
  obtain ⟨cs, h1, h2, h3⟩ := ProcessAction_spec PS acts last m1
  have hlen : cs.length = last.pStatements.length := by
    have := congrArg List.length h2
    simpa using this
  have hdrop : (ProcessAction PS acts (some last) m1).2.calls.drop
      ((ProcessAction PS acts (some last) m1).2.calls.length - last.pStatements.length)
      = cs := by
    rw [h1, List.length_append, ← hlen, Nat.add_sub_cancel, List.drop_left]
  rw [hdrop] at hok ⊢
  refine ⟨h2, ?_⟩
  rw [h3]
  have hnil : (cs.map (fun c => c.rc)).filter (fun c => decide (c ≠ EOK)) = [] := by
    rw [List.filter_eq_nil_iff]
    intro c hc
    obtain ⟨x, hx, rfl⟩ := List.mem_map.mp hc
    simp [hok x hx]
  unfold lastFailure
  rw [hnil]
  rfl

theorem HandleSignal_EOK_of_last_match_ok_witness :
    (VAR_NOTIFICATION linuxSigNums = VAR_NOTIFICATION linuxSigNums
      ∨ VAR_NOTIFICATION linuxSigNums = CALC_NOTIFICATION linuxSigNums) ∧
    ((failingActions linuxSigNums).pActionList.filter
        (boundTo (VAR_NOTIFICATION linuxSigNums) 42)).getLast?
      = some { signal := 40, timerID := 0,
               pSignals := [{ lineno := 1, id := 42 }], pStatements := [5] } ∧
    (∀ c ∈ (HandleSignal linuxSigNums scaledStatement (some (failingActions linuxSigNums))
          (VAR_NOTIFICATION linuxSigNums) 42 (Machine.start 0)).2.calls.drop
        ((HandleSignal linuxSigNums scaledStatement (some (failingActions linuxSigNums))
          (VAR_NOTIFICATION linuxSigNums) 42 (Machine.start 0)).2.calls.length
          - [(5 : Int)].length), c.rc = EOK) ∧
    (HandleSignal linuxSigNums scaledStatement (some (failingActions linuxSigNums))
        (VAR_NOTIFICATION linuxSigNums) 42 (Machine.start 0)).1 = EOK ∧
    (scaledStatement () 5 1).1 ≠ EOK :=
  ⟨Or.inl rfl, by decide, by decide,
   (HandleSignal_EOK_of_last_match_ok linuxSigNums scaledStatement
      (failingActions linuxSigNums) (VAR_NOTIFICATION linuxSigNums) 42 (Machine.start 0)
      { signal := 40, timerID := 0,
        pSignals := [{ lineno := 1, id := 42 }], pStatements := [5] }
      (Or.inl rfl) (by decide) (by decide)).2,
   by decide⟩

/-- C4: for a registry that is not `NULL` and a notification of class
variable-change, calc-request or timer that no trigger matches, `HandleSignal`
gives `ENOENT` and leaves the machine as it was: no trigger is processed and no
statement is run. -/
theorem HandleSignal_no_match (k : SigNums) (PS : H → S → W → Int × W)
    (acts : Actions H S) (signum id : Int) (m : Machine W H S)
    (hvar : k.TIMER_NOTIFICATION ≠ VAR_NOTIFICATION k)
    (hcalc : k.TIMER_NOTIFICATION ≠ CALC_NOTIFICATION k)
    (hnone :
      ((signum = VAR_NOTIFICATION k ∨ signum = CALC_NOTIFICATION k) ∧
          ∀ a ∈ acts.pActionList, boundTo signum id a = false) ∨
      (signum = k.TIMER_NOTIFICATION ∧
          ∀ a ∈ acts.pActionList, onTimer signum id a = false)) :
    HandleSignal k PS (some acts) signum id m = (ENOENT, m) := by
  rcases hnone with ⟨hclass, hl⟩ | ⟨hclass, hl⟩
  · simp only [HandleSignal, if_pos hclass]
    exact varLoop_no_match PS acts signum id acts.pActionList hl ENOENT m
  · have hno : ¬ (signum = VAR_NOTIFICATION k ∨ signum = CALC_NOTIFICATION k) := by
      rw [hclass]
      rintro (h | h)
      · exact hvar h
      · exact hcalc h
    simp only [HandleSignal, if_neg hno, if_pos hclass]
    exact timerLoop_no_match PS acts signum id acts.pActionList hl ENOENT m

theorem HandleSignal_no_match_witness :
    (linuxSigNums.TIMER_NOTIFICATION ≠ VAR_NOTIFICATION linuxSigNums) ∧
    (linuxSigNums.TIMER_NOTIFICATION ≠ CALC_NOTIFICATION linuxSigNums) ∧
    (∀ a ∈ (exampleActions linuxSigNums).pActionList,
        boundTo (VAR_NOTIFICATION linuxSigNums) 99 a = false) ∧
    HandleSignal linuxSigNums codeStatement (some (exampleActions linuxSigNums))
        (VAR_NOTIFICATION linuxSigNums) 99 (Machine.start ())
      = (ENOENT, Machine.start ()) :=
  ⟨by decide, by decide, by decide,
   HandleSignal_no_match linuxSigNums codeStatement (exampleActions linuxSigNums)
     (VAR_NOTIFICATION linuxSigNums) 99 (Machine.start ()) (by decide) (by decide)
     (Or.inl ⟨Or.inl rfl, by decide⟩)⟩

/-! ## The executor -/

/-- C5: `ProcessAction` gives the code of the last statement, in definition
order, whose code is not `EOK`, and `EOK` when every statement gives `EOK` or
there is no statement.  The codes are those the collaborator returned for the
trigger's statements during this very run.  In particular three statements
giving `E1`, `EOK`, `E3` (both failures) yield `E3`. -/
theorem ProcessAction_result_last_failure (PS : H → S → W → Int × W) (acts : Actions H S)
    (a : Action S) (m : Machine W H S) :
    (((ProcessAction PS acts (some a) m).2.calls.drop m.calls.length).map
        (fun c => c.pStatement) = a.pStatements) ∧
    ((ProcessAction PS acts (some a) m).1
      = lastFailure (((ProcessAction PS acts (some a) m).2.calls.drop m.calls.length).map
          (fun c => c.rc))) ∧
    ((∀ c ∈ (ProcessAction PS acts (some a) m).2.calls.drop m.calls.length, c.rc = EOK) →
      (ProcessAction PS acts (some a) m).1 = EOK) ∧
    (a.pStatements = [] → (ProcessAction PS acts (some a) m).1 = EOK) ∧
    (∀ (s1 s2 s3 : S) (E1 E3 : Int), a.pStatements = [s1, s2, s3] →
      (PS acts.hVarServer s1 m.world).1 = E1 → E1 ≠ EOK →
      (PS acts.hVarServer s2 (PS acts.hVarServer s1 m.world).2).1 = EOK →
      (PS acts.hVarServer s3
          (PS acts.hVarServer s2 (PS acts.hVarServer s1 m.world).2).2).1 = E3 →
      E3 ≠ EOK →
      (ProcessAction PS acts (some a) m).1 = E3) := by
  obtain ⟨cs, h1, h2, h3⟩ := ProcessAction_spec PS acts a m
  have hdrop : (ProcessAction PS acts (some a) m).2.calls.drop m.calls.length = cs := by
    rw [h1, List.drop_left]
  refine ⟨?_, ?_, ?_, ?_, ?_⟩
  · rw [hdrop]
    have := congrArg (List.map Prod.snd) h2
    simpa [List.map_map, Function.comp_def] using this
  · rw [hdrop]; exact h3
  · rw [hdrop, h3]
    intro hall
    have hnil : (cs.map (fun c => c.rc)).filter (fun c => decide (c ≠ EOK)) = [] := by
      rw [List.filter_eq_nil_iff]
      intro c hc
      obtain ⟨x, hx, rfl⟩ := List.mem_map.mp hc
      simp [hall x hx]
    unfold lastFailure
    rw [hnil]
    rfl
  · intro hnil
    simp [ProcessAction, hnil, statementLoop]
  · intro s1 s2 s3 E1 E3 hst e1 _ e2 e3 hE3
    simp only [ProcessAction, hst, statementLoop, e2, e3]
    simp [hE3]

theorem ProcessAction_result_last_failure_witness :
    ((5 : Int) ≠ EOK) ∧ ((7 : Int) ≠ EOK) ∧
    (ProcessAction codeStatement (exampleActions linuxSigNums)
        (some { signal := 40, timerID := 0, pSignals := [], pStatements := [5, 0, 7] })
        (Machine.start ())).1 = 7 :=
  ⟨by decide, by decide,
   (ProcessAction_result_last_failure codeStatement (exampleActions linuxSigNums)
      { signal := 40, timerID := 0, pSignals := [], pStatements := [5, 0, 7] }
      (Machine.start ())).2.2.2.2 5 0 7 5 7 rfl rfl (by decide) rfl rfl (by decide)⟩

/-- C6, as stated, fails: the trigger with statements [fail(5), succeed]
yields 5 from `ProcessAction`, not `EOK`. -/
theorem ProcessAction_keeps_earlier_failure :
    (ProcessAction codeStatement (exampleActions linuxSigNums)
        (some { signal := 40, timerID := 0, pSignals := [], pStatements := [5, 0] })
        (Machine.start ())).1 = 5 ∧
    (5 : Int) ≠ EOK := by
  decide

/-- C6, amended: an earlier failure is kept when a later statement succeeds.
A trigger with two statements, the first giving an error code `E1` and the
second giving `EOK`, yields `E1`. -/
theorem ProcessAction_failure_then_success (PS : H → S → W → Int × W) (acts : Actions H S)
    (a : Action S) (m : Machine W H S) (s1 s2 : S) (E1 : Int)
    (hst : a.pStatements = [s1, s2])
    (h1 : (PS acts.hVarServer s1 m.world).1 = E1) (hE1 : E1 ≠ EOK)
    (h2 : (PS acts.hVarServer s2 (PS acts.hVarServer s1 m.world).2).1 = EOK) :
    (ProcessAction PS acts (some a) m).1 = E1 := by
  subst h1
  simp only [ProcessAction, hst, statementLoop, h2]
  simp [hE1]

theorem ProcessAction_failure_then_success_witness :
    ((5 : Int) ≠ EOK) ∧
    (ProcessAction codeStatement (exampleActions linuxSigNums)
        (some { signal := 40, timerID := 0, pSignals := [], pStatements := [5, 0] })
        (Machine.start ())).1 = 5 :=
  ⟨by decide,
   ProcessAction_failure_then_success codeStatement (exampleActions linuxSigNums)
     { signal := 40, timerID := 0, pSignals := [], pStatements := [5, 0] }
     (Machine.start ()) 5 0 5 rfl rfl (by decide) rfl⟩

/-- C7: whatever codes the statements give, `ProcessAction` calls the
execution collaborator on every statement of the trigger, once each and in
definition order, every time with the registry's variable-server handle: the
calls it adds to the log are exactly the trigger's statements. -/
theorem ProcessAction_runs_every_statement (PS : H → S → W → Int × W) (acts : Actions H S)
    (a : Action S) (m : Machine W H S) :
    (ProcessAction PS acts (some a) m).2.calls.map (fun c => (c.hVarServer, c.pStatement))
      = m.calls.map (fun c => (c.hVarServer, c.pStatement))
          ++ a.pStatements.map (fun s => (acts.hVarServer, s)) := by
  obtain ⟨cs, h1, h2, -⟩ := ProcessAction_spec PS acts a m
  rw [h1, List.map_append, h2]

/-! ## Lemmas on the timer manager -/

/-- What holds of the file-scoped state of `timer.c` at every moment: the
counter is within `0 .. 254`, the table has its 255 slots, and no slot above
the counter has been written. -/
theorem TimerState.fresh_inv :
    0 ≤ TimerState.fresh.id ∧ TimerState.fresh.id < MAX_TIMERS ∧
    TimerState.fresh.timers.length = 255 ∧
    ∀ (i : Nat) (t : OsTimer), TimerState.fresh.id < (i : Int) →
      TimerState.fresh.timers[i]? ≠ some (some t) := by
  refine ⟨by decide, by decide, List.length_replicate 255 none, ?_⟩
  intro i t _
  simp only [TimerState.fresh, List.getElem?_replicate]
  split <;> simp

theorem CreateTick_full (k : SigNums) (num : Int) (ts : Timescale) (st : TimerState)
    (hfull : ¬ st.id + 1 < MAX_TIMERS) : CreateTick k num ts st = (-1, st) := by
  simp [CreateTick, hfull]

theorem CreateTick_zero (k : SigNums) (num : Int) (ts : Timescale) (st : TimerState)
    (hroom : st.id + 1 < MAX_TIMERS)
    (hzero : (tickInterval num ts).1 = 0 ∧ (tickInterval num ts).2 = 0) :
    CreateTick k num ts st = (-1, { id := st.id + 1, timers := st.timers }) := by
  simp [CreateTick, hroom, hzero.1, hzero.2]

theorem CreateTick_nonzero (k : SigNums) (num : Int) (ts : Timescale) (st : TimerState)
    (hroom : st.id + 1 < MAX_TIMERS)
    (hnz : (tickInterval num ts).1 ≠ 0 ∨ (tickInterval num ts).2 ≠ 0) :
    (CreateTick k num ts st).1 = st.id + 1 ∧ (CreateTick k num ts st).2.id = st.id + 1 ∧
    (CreateTick k num ts st).2.timers
      = st.timers.set (st.id + 1).toNat
          (some { clockid := CLOCK_REALTIME
                  te := { sigev_notify := SIGEV_SIGNAL
                          sigev_signo := k.TIMER_NOTIFICATION
                          sival_int := st.id + 1 }
                  its := { it_interval := computedInterval num ts
                           it_value := computedInterval num ts } }) := by
  refine ⟨?_, ?_, ?_⟩ <;> simp [CreateTick, hroom, hnz, computedInterval]

theorem CreateTick_id (k : SigNums) (num : Int) (ts : Timescale) (st : TimerState)
    (hroom : st.id + 1 < MAX_TIMERS) : (CreateTick k num ts st).2.id = st.id + 1 := by
  by_cases hnz : (tickInterval num ts).1 ≠ 0 ∨ (tickInterval num ts).2 ≠ 0
  · exact (CreateTick_nonzero k num ts st hroom hnz).2.1
  · have hz : (tickInterval num ts).1 = 0 ∧ (tickInterval num ts).2 = 0 := by
      constructor
      · by_contra h; exact hnz (Or.inl h)
      · by_contra h; exact hnz (Or.inr h)
    rw [CreateTick_zero k num ts st hroom hz]

theorem CreateTick_result (k : SigNums) (num : Int) (ts : Timescale) (st : TimerState) :
    (CreateTick k num ts st).1 = -1 ∨
      ((CreateTick k num ts st).1 = st.id + 1 ∧ st.id + 1 < MAX_TIMERS) := by
  by_cases hroom : st.id + 1 < MAX_TIMERS
  · by_cases hnz : (tickInterval num ts).1 ≠ 0 ∨ (tickInterval num ts).2 ≠ 0
    · exact Or.inr ⟨(CreateTick_nonzero k num ts st hroom hnz).1, hroom⟩
    · left
      simp [CreateTick, hroom, hnz]
  · left
    rw [CreateTick_full k num ts st hroom]

theorem CreateTick_inv (k : SigNums) (num : Int) (ts : Timescale) (st : TimerState)
    (hinv : 0 ≤ st.id ∧ st.id < MAX_TIMERS ∧ st.timers.length = 255 ∧
      ∀ (i : Nat) (t : OsTimer), st.id < (i : Int) → st.timers[i]? ≠ some (some t)) :
    0 ≤ (CreateTick k num ts st).2.id ∧ (CreateTick k num ts st).2.id < MAX_TIMERS ∧
    (CreateTick k num ts st).2.timers.length = 255 ∧
    ∀ (i : Nat) (t : OsTimer), (CreateTick k num ts st).2.id < (i : Int) →
      (CreateTick k num ts st).2.timers[i]? ≠ some (some t) := by
  obtain ⟨h0, h1, h2, h3⟩ := hinv
  by_cases hroom : st.id + 1 < MAX_TIMERS
  · by_cases hnz : (tickInterval num ts).1 ≠ 0 ∨ (tickInterval num ts).2 ≠ 0
    · obtain ⟨-, e2, e3⟩ := CreateTick_nonzero k num ts st hroom hnz
      rw [e2, e3]
      refine ⟨by omega, hroom, by simp [h2], ?_⟩
      intro i t hi
      rw [List.getElem?_set_ne (by omega)]
      exact h3 i t (by omega)
    · have hz : (tickInterval num ts).1 = 0 ∧ (tickInterval num ts).2 = 0 := by
        constructor
        · by_contra h; exact hnz (Or.inl h)
        · by_contra h; exact hnz (Or.inr h)
      rw [CreateTick_zero k num ts st hroom hz]
      exact ⟨by show 0 ≤ st.id + 1; omega, hroom, h2, fun i t hi => h3 i t (by
        have : st.id + 1 < (i : Int) := hi
        omega)⟩
  · rw [CreateTick_full k num ts st hroom]
    exact ⟨h0, h1, h2, h3⟩

theorem createTicks_inv (k : SigNums) (calls : List (Int × Timescale)) :
    ∀ st : TimerState,
      (0 ≤ st.id ∧ st.id < MAX_TIMERS ∧ st.timers.length = 255 ∧
        ∀ (i : Nat) (t : OsTimer), st.id < (i : Int) → st.timers[i]? ≠ some (some t)) →
      0 ≤ (createTicks k calls st).2.id ∧ (createTicks k calls st).2.id < MAX_TIMERS ∧
      (createTicks k calls st).2.timers.length = 255 ∧
      ∀ (i : Nat) (t : OsTimer), (createTicks k calls st).2.id < (i : Int) →
        (createTicks k calls st).2.timers[i]? ≠ some (some t) := by
  induction calls with
  | nil => intro st hinv; simpa [createTicks] using hinv
  | cons c rest ih =>
    intro st hinv
    simp only [createTicks]
    exact ih _ (CreateTick_inv k c.1 c.2 st hinv)

theorem createTicks_full (k : SigNums) (calls : List (Int × Timescale)) :
    ∀ st : TimerState, ¬ st.id + 1 < MAX_TIMERS →
      (∀ r ∈ (createTicks k calls st).1, r = -1) ∧ (createTicks k calls st).2 = st := by
  induction calls with
  | nil => intro st _; simp [createTicks]
  | cons c rest ih =>
    intro st hfull
    simp only [createTicks, CreateTick_full k c.1 c.2 st hfull]
    obtain ⟨ha, hb⟩ := ih st hfull
    refine ⟨?_, hb⟩
    intro r hr
    rcases List.mem_cons.mp hr with h | h
    · exact h
    · exact ha r h

/-- A call that does not fail returns the counter it started from plus its
position in the sequence of calls. -/
theorem createTicks_position (k : SigNums) (calls : List (Int × Timescale)) :
    ∀ (st : TimerState) (p : Nat) (r : Int),
      (createTicks k calls st).1[p]? = some r → r ≠ -1 →
      r = st.id + (p : Int) + 1 ∧ r < MAX_TIMERS := by
  induction calls with
  | nil => intro st p r hr; simp [createTicks] at hr
  | cons c rest ih =>
    intro st p r hr hne
    simp only [createTicks] at hr
    cases p with
    | zero =>
      simp only [List.getElem?_cons_zero, Option.some.injEq] at hr
      rcases CreateTick_result k c.1 c.2 st with h | ⟨h, hroom⟩
      · exact absurd (hr ▸ h) hne
      · rw [← hr, h]
        exact ⟨by simp, hroom⟩
    | succ q =>
      simp only [List.getElem?_cons_succ] at hr
      by_cases hroom : st.id + 1 < MAX_TIMERS
      · obtain ⟨e, hlt⟩ := ih _ q r hr hne
        rw [CreateTick_id k c.1 c.2 st hroom] at e
        refine ⟨?_, hlt⟩
        rw [e]; push_cast; ring
      · rw [CreateTick_full k c.1 c.2 st hroom] at hr
        have hmem : r ∈ (createTicks k rest st).1 := List.getElem?_mem hr
        exact absurd ((createTicks_full k rest st hroom).1 r hmem) hne

theorem createTicks_append (k : SigNums) (xs ys : List (Int × Timescale)) :
    ∀ st : TimerState,
      createTicks k (xs ++ ys) st
        = ((createTicks k xs st).1 ++ (createTicks k ys (createTicks k xs st).2).1,
           (createTicks k ys (createTicks k xs st).2).2) := by
  induction xs with
  | nil => intro st; simp [createTicks]
  | cons c rest ih => intro st; simp [createTicks, ih]

/-- While the table has room, calls with a non-zero interval return the
successive identifiers. -/
theorem createTicks_all_succeed (k : SigNums) (calls : List (Int × Timescale))
    (hnz : ∀ c ∈ calls, (tickInterval c.1 c.2).1 ≠ 0 ∨ (tickInterval c.1 c.2).2 ≠ 0) :
    ∀ st : TimerState, st.id + (calls.length : Int) < MAX_TIMERS →
      (createTicks k calls st).1 = (List.range calls.length).map (fun (i : Nat) => st.id + 1 + (i : Int)) ∧
      (createTicks k calls st).2.id = st.id + (calls.length : Int) := by
  induction calls with
  | nil => intro st _; simp [createTicks]
  | cons c rest ih =>
    intro st hroom
    have hlen : ((c :: rest).length : Int) = (rest.length : Int) + 1 := by simp
    have hroom1 : st.id + 1 < MAX_TIMERS := by rw [hlen] at hroom; omega
    obtain ⟨e1, e2, -⟩ := CreateTick_nonzero k c.1 c.2 st hroom1 (hnz c (List.mem_cons_self c rest))
    obtain ⟨ha, hb⟩ := ih (fun d hd => hnz d (List.mem_cons_of_mem c hd)) (CreateTick k c.1 c.2 st).2
      (by rw [e2]; rw [hlen] at hroom; omega)
    simp only [createTicks, ha, hb, e1, e2, List.length_cons, List.range_succ_eq_map,
      List.map_cons, List.map_map]
    refine ⟨?_, by push_cast; ring⟩
    congr 1
    · simp
    · apply List.map_congr_left
      intro i _
      simp only [Function.comp_apply, Nat.succ_eq_add_one]
      push_cast; ring

theorem stateAfter_inv (k : SigNums) (calls : List (Int × Timescale)) :
    0 ≤ (stateAfter k calls).id ∧ (stateAfter k calls).id < MAX_TIMERS ∧
    (stateAfter k calls).timers.length = 255 ∧
    ∀ (i : Nat) (t : OsTimer), (stateAfter k calls).id < (i : Int) →
      (stateAfter k calls).timers[i]? ≠ some (some t) :=
  createTicks_inv k calls TimerState.fresh TimerState.fresh_inv

theorem computedInterval_zero_iff (num : Int) (ts : Timescale) :
    computedInterval num ts = { tv_sec := 0, tv_nsec := 0 }
      ↔ (tickInterval num ts).1 = 0 ∧ (tickInterval num ts).2 = 0 := by
  simp only [computedInterval, TimeSpec.mk.injEq]
  constructor
  · rintro ⟨h1, h2⟩; exact ⟨h1, by omega⟩
  · rintro ⟨h1, h2⟩; exact ⟨h1, by omega⟩

/-! ## Capacity of the timer table -/

/-- C8, the code at the failing input: of 255 consecutive calls
`CreateTick( 1, TIMESCALE_eSECONDS )` from program start, the first 254 return
the identifiers 1 to 254 and the 255th returns -1. -/
theorem createTicks_255th_call_fails (k : SigNums) :
    resultsOf k (List.replicate 255 (1, Timescale.TIMESCALE_eSECONDS))
      = (List.range 254).map (fun (i : Nat) => (i : Int) + 1) ++ [-1] := by
  have hnz : ∀ c ∈ List.replicate 254 ((1 : Int), Timescale.TIMESCALE_eSECONDS),
      (tickInterval c.1 c.2).1 ≠ 0 ∨ (tickInterval c.1 c.2).2 ≠ 0 := by
    intro c hc
    rw [List.eq_of_mem_replicate hc]
    left
    decide
  obtain ⟨h1, h2⟩ := createTicks_all_succeed k _ hnz TimerState.fresh
    (by rw [List.length_replicate]; decide)
  rw [List.length_replicate] at h1 h2
  have hfull : ¬ (createTicks k (List.replicate 254 ((1 : Int), Timescale.TIMESCALE_eSECONDS))
      TimerState.fresh).2.id + 1 < MAX_TIMERS := by
    rw [h2]; decide
  have hmap : (List.range 254).map (fun (i : Nat) => TimerState.fresh.id + 1 + (i : Int))
      = (List.range 254).map (fun (i : Nat) => (i : Int) + 1) := by
    apply List.map_congr_left
    intro i _
    show (0 : Int) + 1 + (i : Int) = (i : Int) + 1
    ring
  rw [hmap] at h1
  unfold resultsOf
  rw [List.replicate_succ', createTicks_append, h1]
  generalize (createTicks k (List.replicate 254 ((1 : Int), Timescale.TIMESCALE_eSECONDS))
      TimerState.fresh).2 = st at hfull
  simp only [createTicks, CreateTick_full k _ _ _ hfull]

/-! ## Failure on a zero interval -/

/-- C10, as stated, fails: after the failing call `CreateTick( 0, seconds )`
the call `CreateTick( 1, seconds )` is the first successful call and returns
the identifier 2, not 1. -/
theorem first_success_after_failure_returns_2 :
    resultsOf linuxSigNums
        [(0, Timescale.TIMESCALE_eSECONDS), (1, Timescale.TIMESCALE_eSECONDS)] = [-1, 2] ∧
    (successes (resultsOf linuxSigNums
        [(0, Timescale.TIMESCALE_eSECONDS), (1, Timescale.TIMESCALE_eSECONDS)]))[0]? = some 2 ∧
    (2 : Int) ≠ 1 := by
  decide

/-- C10, amended: identifiers are allocated sequentially from 1 per call made
while the table has room.  In every sequence of calls from program start a
successful call returns its position in the whole sequence, failed calls
counted; so when no earlier call failed, the k-th successful call returns k. -/
theorem CreateTick_success_returns_position (k : SigNums) (calls : List (Int × Timescale))
    (p : Nat) (r : Int)
    (hr : (resultsOf k calls)[p]? = some r) (hs : r ≠ -1) :
    r = (p : Int) + 1 ∧
    ((∀ x ∈ (resultsOf k calls).take p, x ≠ -1) →
      (successes (resultsOf k calls))[p]? = some r) := by
  constructor
  · have h := (createTicks_position k calls TimerState.fresh p r hr hs).1
    rw [h]
    show (0 : Int) + (p : Int) + 1 = (p : Int) + 1
    ring
  · intro hall
    have hp : p < (resultsOf k calls).length := by
      by_contra hge
      rw [List.getElem?_eq_none (by omega)] at hr
      exact Option.noConfusion hr
    have hsplit : resultsOf k calls
        = (resultsOf k calls).take p ++ (resultsOf k calls).drop p :=
      (List.take_append_drop p _).symm
    have hdrop : (resultsOf k calls).drop p = r :: (resultsOf k calls).drop (p + 1) := by
      rw [List.drop_eq_getElem_cons hp]
      congr 1
      rw [List.getElem?_eq_getElem hp] at hr
      exact Option.some.inj hr
    have htake : ((resultsOf k calls).take p).filter (fun x => decide (x ≠ -1))
        = (resultsOf k calls).take p := by
      rw [List.filter_eq_self]
      intro x hx
      simpa using hall x hx
    have hlen : ((resultsOf k calls).take p).length = p := by
      rw [List.length_take]; omega
    unfold successes
    rw [hsplit, List.filter_append, htake, hdrop, List.filter_cons_of_pos (by simpa using hs)]
    rw [List.getElem?_append_right (by omega), hlen]
    simp

theorem CreateTick_success_returns_position_witness :
    ((resultsOf linuxSigNums
        [(0, Timescale.TIMESCALE_eSECONDS), (1, Timescale.TIMESCALE_eSECONDS)])[1]? = some 2) ∧
    ((2 : Int) ≠ -1) ∧
    (2 : Int) = ((1 : Nat) : Int) + 1 :=
  ⟨by decide, by decide,
   (CreateTick_success_returns_position linuxSigNums
      [(0, Timescale.TIMESCALE_eSECONDS), (1, Timescale.TIMESCALE_eSECONDS)] 1 2
      (by decide) (by decide)).1⟩

/-! ## The computed interval -/

theorem wrapInt32_of_fits (x : Int) (h0 : 0 ≤ x) (h1 : x ≤ 2147483647) : wrapInt32 x = x := by
  unfold wrapInt32
  omega

/-- C11: for a count that is not negative and a recognised unit such that the
count times the unit's factor fits a signed 32-bit integer, the interval
`CreateTick` computes is the one the specification words: `count div 1000`
seconds and `(count mod 1000) * 1,000,000` nanoseconds for milliseconds,
`factor * count` seconds and no nanoseconds for the other units.  Its total
length is exactly `count` units and its nanoseconds lie in `0 .. 999,999,999`. -/
theorem computedInterval_eq_specInterval (num : Int) (ts : Timescale)
    (h0 : 0 ≤ num) (hrec : ts ≠ Timescale.unrecognised)
    (hfit : num * unitFactor ts ≤ 2147483647) :
    computedInterval num ts = specInterval num ts ∧
    (computedInterval num ts).tv_sec * 1000000000 + (computedInterval num ts).tv_nsec
      = num * nanosPerUnit ts ∧
    0 ≤ (computedInterval num ts).tv_nsec ∧
    (computedInterval num ts).tv_nsec ≤ 999999999 := by
  have e : computedInterval num ts = specInterval num ts := by
    cases ts with
    | TIMESCALE_eMILLISECONDS =>
      have hd : Int.tdiv num 1000 = num / 1000 := Int.tdiv_eq_ediv h0 (by decide)
      have hm : Int.tmod num 1000 = num % 1000 := Int.tmod_eq_emod h0 (by decide)
      simp only [computedInterval, tickInterval, specInterval, hd, hm]
    | TIMESCALE_eSECONDS => simp [computedInterval, tickInterval, specInterval]
    | TIMESCALE_eMINUTES =>
      simp only [unitFactor] at hfit
      have hw : wrapInt32 (num * 60) = 60 * num := by
        rw [wrapInt32_of_fits _ (by omega) hfit]; ring
      simp [computedInterval, tickInterval, specInterval, hw]
    | TIMESCALE_eHOURS =>
      simp only [unitFactor] at hfit
      have hw : wrapInt32 (num * 3600) = 3600 * num := by
        rw [wrapInt32_of_fits _ (by omega) hfit]; ring
      simp [computedInterval, tickInterval, specInterval, hw]
    | TIMESCALE_eDAYS =>
      simp only [unitFactor] at hfit
      have hw : wrapInt32 (num * 86400) = 86400 * num := by
        rw [wrapInt32_of_fits _ (by omega) hfit]; ring
      simp [computedInterval, tickInterval, specInterval, hw]
    | TIMESCALE_eWEEKS =>
      simp only [unitFactor] at hfit
      have hw1 : wrapInt32 (num * 86400) = num * 86400 :=
        wrapInt32_of_fits _ (by omega) (by omega)
      have hw : wrapInt32 (wrapInt32 (num * 86400) * 7) = 604800 * num := by
        rw [hw1, wrapInt32_of_fits _ (by omega) (by omega)]; ring
      simp [computedInterval, tickInterval, specInterval, hw]
    | unrecognised => exact absurd rfl hrec
  refine ⟨e, ?_, ?_, ?_⟩ <;> rw [e] <;> cases ts <;>
    simp only [specInterval, nanosPerUnit] <;> omega

theorem computedInterval_eq_specInterval_witness :
    ((0 : Int) ≤ 2500) ∧
    (Timescale.TIMESCALE_eMILLISECONDS ≠ Timescale.unrecognised) ∧
    ((2500 : Int) * unitFactor Timescale.TIMESCALE_eMILLISECONDS ≤ 2147483647) ∧
    (computedInterval 2500 Timescale.TIMESCALE_eMILLISECONDS
        = specInterval 2500 Timescale.TIMESCALE_eMILLISECONDS ∧
      (computedInterval 2500 Timescale.TIMESCALE_eMILLISECONDS).tv_sec * 1000000000
          + (computedInterval 2500 Timescale.TIMESCALE_eMILLISECONDS).tv_nsec
        = 2500 * nanosPerUnit Timescale.TIMESCALE_eMILLISECONDS ∧
      0 ≤ (computedInterval 2500 Timescale.TIMESCALE_eMILLISECONDS).tv_nsec ∧
      (computedInterval 2500 Timescale.TIMESCALE_eMILLISECONDS).tv_nsec ≤ 999999999) ∧
    specInterval 2500 Timescale.TIMESCALE_eMILLISECONDS
      = { tv_sec := 2, tv_nsec := 500000000 } :=
  ⟨by decide, by decide, by decide,
   computedInterval_eq_specInterval 2500 Timescale.TIMESCALE_eMILLISECONDS
     (by decide) (by decide) (by decide),
   by decide⟩

/-- C12: for every `n` that is not negative and with `1000 * n` representable
as a signed 32-bit integer, `CreateTick( 1000 * n, milliseconds )` and
`CreateTick( n, seconds )` compute the same interval, `n` seconds and no
nanoseconds, and in any state of the timer manager return the same value and
leave the same state behind.  The product `1000 * n` is then the same in `int`
arithmetic as in the integers. -/
theorem CreateTick_1000n_milliseconds_eq_n_seconds (k : SigNums) (n : Int) (st : TimerState)
    (h0 : 0 ≤ n) (hfit : 1000 * n ≤ 2147483647) :
    wrapInt32 (1000 * n) = 1000 * n ∧
    computedInterval (1000 * n) Timescale.TIMESCALE_eMILLISECONDS
      = computedInterval n Timescale.TIMESCALE_eSECONDS ∧
    computedInterval n Timescale.TIMESCALE_eSECONDS = { tv_sec := n, tv_nsec := 0 } ∧
    CreateTick k (1000 * n) Timescale.TIMESCALE_eMILLISECONDS st
      = CreateTick k n Timescale.TIMESCALE_eSECONDS st := by
  have ht : tickInterval (1000 * n) Timescale.TIMESCALE_eMILLISECONDS
      = tickInterval n Timescale.TIMESCALE_eSECONDS := by
    simp only [tickInterval]
    rw [Int.mul_tdiv_cancel_left n (by decide), Int.mul_tmod_right]
  refine ⟨wrapInt32_of_fits _ (by omega) hfit, ?_, ?_, ?_⟩
  · simp only [computedInterval, ht]
  · simp [computedInterval, tickInterval]
  · simp only [CreateTick, ht]

theorem CreateTick_1000n_milliseconds_eq_n_seconds_witness :
    ((0 : Int) ≤ 1) ∧ ((1000 : Int) * 1 ≤ 2147483647) ∧
    (wrapInt32 (1000 * 1) = 1000 * 1 ∧
      computedInterval (1000 * 1) Timescale.TIMESCALE_eMILLISECONDS
        = computedInterval 1 Timescale.TIMESCALE_eSECONDS ∧
      computedInterval 1 Timescale.TIMESCALE_eSECONDS = { tv_sec := 1, tv_nsec := 0 } ∧
      CreateTick linuxSigNums (1000 * 1) Timescale.TIMESCALE_eMILLISECONDS TimerState.fresh
        = CreateTick linuxSigNums 1 Timescale.TIMESCALE_eSECONDS TimerState.fresh) :=
  ⟨by decide, by decide,
   CreateTick_1000n_milliseconds_eq_n_seconds linuxSigNums 1 TimerState.fresh
     (by decide) (by decide)⟩

/-! ## Counts that are not positive -/

/-- C13, as stated, fails: `CreateTick( -1, seconds )` at program start is not
rejected.  It returns the identifier 1 and puts a timer with the interval of
-1 seconds into slot 1 of the table. -/
theorem CreateTick_negative_count_not_rejected :
    ((-1 : Int) ≤ 0) ∧
    (CreateTick linuxSigNums (-1) Timescale.TIMESCALE_eSECONDS TimerState.fresh).1 = 1 ∧
    (CreateTick linuxSigNums (-1) Timescale.TIMESCALE_eSECONDS TimerState.fresh).2.timers[1]?
      = some (some { clockid := 0
                     te := { sigev_notify := 0, sigev_signo := 39, sival_int := 1 }
                     its := { it_interval := { tv_sec := -1, tv_nsec := 0 }
                              it_value := { tv_sec := -1, tv_nsec := 0 } } }) := by
  refine ⟨by decide, by decide, ?_⟩
  rw [(CreateTick_nonzero linuxSigNums (-1) Timescale.TIMESCALE_eSECONDS TimerState.fresh
    (by decide) (Or.inl (by decide))).2.2]
  exact List.getElem?_set_self (by rw [TimerState.fresh_inv.2.2.1]; decide)

/-- C13, amended: `CreateTick` fails on a zero computed interval.  For the
count 0 and every unit, and for a negative count whenever the interval computed
from it is zero seconds and zero nanoseconds, `CreateTick` returns -1 and
leaves the timer table as it was, in any state of the timer manager. -/
theorem CreateTick_nonpositive_count_zero_interval (k : SigNums) (count : Int)
    (ts : Timescale) (st : TimerState) (hcount : count ≤ 0)
    (hneg : count < 0 → computedInterval count ts = { tv_sec := 0, tv_nsec := 0 }) :
    (CreateTick k count ts st).1 = -1 ∧
    (CreateTick k count ts st).2.timers = st.timers := by
  have hzero : computedInterval count ts = { tv_sec := 0, tv_nsec := 0 } := by
    by_cases hlt : count < 0
    · exact hneg hlt
    · have h0 : count = 0 := by omega
      subst h0
      cases ts <;> decide
  have hz := (computedInterval_zero_iff count ts).mp hzero
  by_cases hroom : st.id + 1 < MAX_TIMERS
  · rw [CreateTick_zero k count ts st hroom hz]
    exact ⟨rfl, rfl⟩
  · rw [CreateTick_full k count ts st hroom]
    exact ⟨rfl, rfl⟩

theorem CreateTick_nonpositive_count_zero_interval_witness :
    ((0 : Int) ≤ 0) ∧
    ((CreateTick linuxSigNums 0 Timescale.TIMESCALE_eHOURS TimerState.fresh).1 = -1 ∧
      (CreateTick linuxSigNums 0 Timescale.TIMESCALE_eHOURS TimerState.fresh).2.timers
        = TimerState.fresh.timers) ∧
    ((-5 : Int) ≤ 0) ∧
    (computedInterval (-5) Timescale.unrecognised = { tv_sec := 0, tv_nsec := 0 }) ∧
    ((CreateTick linuxSigNums (-5) Timescale.unrecognised TimerState.fresh).1 = -1 ∧
      (CreateTick linuxSigNums (-5) Timescale.unrecognised TimerState.fresh).2.timers
        = TimerState.fresh.timers) :=
  ⟨by decide,
   CreateTick_nonpositive_count_zero_interval linuxSigNums 0 Timescale.TIMESCALE_eHOURS
     TimerState.fresh (by decide) (fun h => absurd h (by decide)),
   by decide, by decide,
   CreateTick_nonpositive_count_zero_interval linuxSigNums (-5) Timescale.unrecognised
     TimerState.fresh (by decide) (fun _ => by decide)⟩

/-! ## What a successful call configures -/

/-- C14: a successful call, made in any state the timer manager can reach,
leaves in the table slot of the identifier it returns a timer whose delay of
the first firing and whose repeat period are both the computed interval, that
notifies by the signal `TIMER_NOTIFICATION`, and whose notification payload is
the identifier returned. -/
theorem CreateTick_success_configures_timer (k : SigNums) (calls : List (Int × Timescale))
    (num : Int) (ts : Timescale) (r : Int)
    (hr : (CreateTick k num ts (stateAfter k calls)).1 = r) (hs : r ≠ -1) :
    (CreateTick k num ts (stateAfter k calls)).2.timers[r.toNat]?
      = some (some { clockid := CLOCK_REALTIME
                     te := { sigev_notify := SIGEV_SIGNAL
                             sigev_signo := k.TIMER_NOTIFICATION
                             sival_int := r }
                     its := { it_interval := computedInterval num ts
                              it_value := computedInterval num ts } }) := by
  obtain ⟨h0, -, hlen, -⟩ := stateAfter_inv k calls
  by_cases hroom : (stateAfter k calls).id + 1 < MAX_TIMERS
  · by_cases hnz : (tickInterval num ts).1 ≠ 0 ∨ (tickInterval num ts).2 ≠ 0
    · obtain ⟨e1, -, e3⟩ := CreateTick_nonzero k num ts _ hroom hnz
      have hre : r = (stateAfter k calls).id + 1 := by rw [← hr, e1]
      rw [e3, hre]
      apply List.getElem?_set_self
      rw [hlen]
      have : (stateAfter k calls).id + 1 < 255 := hroom
      omega
    · have hz : (tickInterval num ts).1 = 0 ∧ (tickInterval num ts).2 = 0 := by
        constructor
        · by_contra h; exact hnz (Or.inl h)
        · by_contra h; exact hnz (Or.inr h)
      rw [CreateTick_zero k num ts _ hroom hz] at hr
      exact absurd hr.symm hs
  · rw [CreateTick_full k num ts _ hroom] at hr
    exact absurd hr.symm hs

theorem CreateTick_success_configures_timer_witness :
    ((CreateTick linuxSigNums 1500 Timescale.TIMESCALE_eMILLISECONDS
        (stateAfter linuxSigNums [(5, Timescale.TIMESCALE_eMINUTES)])).1 = 2) ∧
    ((2 : Int) ≠ -1) ∧
    (CreateTick linuxSigNums 1500 Timescale.TIMESCALE_eMILLISECONDS
        (stateAfter linuxSigNums [(5, Timescale.TIMESCALE_eMINUTES)])).2.timers[(2 : Int).toNat]?
      = some (some { clockid := CLOCK_REALTIME
                     te := { sigev_notify := SIGEV_SIGNAL
                             sigev_signo := linuxSigNums.TIMER_NOTIFICATION
                             sival_int := 2 }
                     its := { it_interval := computedInterval 1500
                                Timescale.TIMESCALE_eMILLISECONDS
                              it_value := computedInterval 1500
                                Timescale.TIMESCALE_eMILLISECONDS } }) :=
  ⟨by decide, by decide,
   CreateTick_success_configures_timer linuxSigNums [(5, Timescale.TIMESCALE_eMINUTES)] 1500
     Timescale.TIMESCALE_eMILLISECONDS 2 (by decide) (by decide)⟩

/-! ## Which trigger decides the result -/

theorem varLoop_congr_handle (PS : H → S → W → Int × W) (acts acts1 : Actions H S)
    (hh : acts.hVarServer = acts1.hVarServer) (signum id : Int) (l : List (Action S)) :
    ∀ (r0 : Int) (m : Machine W H S),
      varLoop PS acts signum id l r0 m = varLoop PS acts1 signum id l r0 m := by
  induction l with
  | nil => intro r0 m; simp [varLoop]
  | cons a rest ih =>
    intro r0 m
    have hpa : ProcessAction PS acts (some a) m = ProcessAction PS acts1 (some a) m := by
      simp only [ProcessAction, hh]
    simp only [varLoop, hpa, ih]

theorem varLoop_append (PS : H → S → W → Int × W) (acts : Actions H S) (signum id : Int)
    (pre rest : List (Action S)) :
    ∀ (r0 : Int) (m : Machine W H S),
      varLoop PS acts signum id (pre ++ rest) r0 m
        = varLoop PS acts signum id rest (varLoop PS acts signum id pre r0 m).1
            (varLoop PS acts signum id pre r0 m).2 := by
  induction pre with
  | nil => intro r0 m; simp [varLoop]
  | cons a tl ih =>
    intro r0 m
    cases ha : boundTo signum id a with
    | true =>
      rw [List.cons_append, varLoop_cons_match PS acts signum id a _ r0 m ha,
        varLoop_cons_match PS acts signum id a _ r0 m ha, ih]
    | false =>
      rw [List.cons_append, varLoop_cons_skip PS acts signum id a _ r0 m ha,
        varLoop_cons_skip PS acts signum id a _ r0 m ha, ih]

/-- C15: on a variable-change or calc-request notification that matches at
least one trigger, write the registry as the triggers before the last matching
one, that trigger `last`, and the triggers after it, none of which matches.
Then `HandleSignal` gives what `ProcessAction` gives for `last`, run on the
machine that dispatching to the earlier triggers leaves: the results of the
earlier matching triggers are discarded, whether they failed or succeeded. -/
theorem HandleSignal_result_of_last_match (k : SigNums) (PS : H → S → W → Int × W)
    (acts : Actions H S) (pre post : List (Action S)) (last : Action S)
    (signum id : Int) (m : Machine W H S)
    (hclass : signum = VAR_NOTIFICATION k ∨ signum = CALC_NOTIFICATION k)
    (hsplit : acts.pActionList = pre ++ last :: post)
    (hlast : boundTo signum id last = true)
    (hpost : ∀ a ∈ post, boundTo signum id a = false) :
    (acts.pActionList.filter (boundTo signum id)).getLast? = some last ∧
    HandleSignal k PS (some acts) signum id m
      = ProcessAction PS acts (some last)
          (HandleSignal k PS
            (some { hVarServer := acts.hVarServer, verbose := acts.verbose,
                    output := acts.output, pActionList := pre })
            signum id m).2 := by
  constructor
  · have hnil : post.filter (boundTo signum id) = [] := by
      rw [List.filter_eq_nil_iff]
      intro a ha
      simp [hpost a ha]
    rw [hsplit, List.filter_append, List.filter_cons_of_pos hlast, hnil]
    simp
  · simp only [HandleSignal, if_pos hclass]
    rw [hsplit, varLoop_append, varLoop_cons_match PS acts signum id last post _ _ hlast,
      varLoop_no_match PS acts signum id post hpost]
    rw [varLoop_congr_handle PS acts
      { hVarServer := acts.hVarServer, verbose := acts.verbose,
        output := acts.output, pActionList := pre } rfl]

theorem HandleSignal_result_of_last_match_witness :
    (VAR_NOTIFICATION linuxSigNums = VAR_NOTIFICATION linuxSigNums
      ∨ VAR_NOTIFICATION linuxSigNums = CALC_NOTIFICATION linuxSigNums) ∧
    ((maskedFailureActions linuxSigNums).pActionList
      = [{ signal := 40, timerID := 0, pSignals := [{ lineno := 1, id := 42 }],
           pStatements := [5] }]
        ++ { signal := 40, timerID := 0, pSignals := [{ lineno := 2, id := 42 }],
             pStatements := [0] } :: []) ∧
    (HandleSignal linuxSigNums codeStatement (some (maskedFailureActions linuxSigNums))
        (VAR_NOTIFICATION linuxSigNums) 42 (Machine.start ())
      = ProcessAction codeStatement (maskedFailureActions linuxSigNums)
          (some { signal := 40, timerID := 0, pSignals := [{ lineno := 2, id := 42 }],
                  pStatements := [0] })
          (HandleSignal linuxSigNums codeStatement
            (some { hVarServer := (maskedFailureActions linuxSigNums).hVarServer,
                    verbose := (maskedFailureActions linuxSigNums).verbose,
                    output := (maskedFailureActions linuxSigNums).output,
                    pActionList :=
                      [{ signal := 40, timerID := 0, pSignals := [{ lineno := 1, id := 42 }],
                         pStatements := [5] }] })
            (VAR_NOTIFICATION linuxSigNums) 42 (Machine.start ())).2) ∧
    (HandleSignal linuxSigNums codeStatement (some (maskedFailureActions linuxSigNums))
        (VAR_NOTIFICATION linuxSigNums) 42 (Machine.start ())).1 = EOK ∧
    (HandleSignal linuxSigNums codeStatement (some (lastFailsActions linuxSigNums))
        (VAR_NOTIFICATION linuxSigNums) 42 (Machine.start ())).1 = 7 :=
  ⟨Or.inl rfl, by decide,
   (HandleSignal_result_of_last_match linuxSigNums codeStatement
      (maskedFailureActions linuxSigNums)
      [{ signal := 40, timerID := 0, pSignals := [{ lineno := 1, id := 42 }],
         pStatements := [5] }]
      []
      { signal := 40, timerID := 0, pSignals := [{ lineno := 2, id := 42 }],
        pStatements := [0] }
      (VAR_NOTIFICATION linuxSigNums) 42 (Machine.start ())
      (Or.inl rfl) (by decide) (by decide) (by decide)).2,
   by decide, by decide⟩

/-! ## Bounds on the counter and on the table index -/

theorem CreateTick_id_mono (k : SigNums) (num : Int) (ts : Timescale) (st : TimerState) :
    st.id ≤ (CreateTick k num ts st).2.id := by
  by_cases hroom : st.id + 1 < MAX_TIMERS
  · rw [CreateTick_id k num ts st hroom]; omega
  · rw [CreateTick_full k num ts st hroom]

theorem createTicks_id_mono (k : SigNums) (calls : List (Int × Timescale)) :
    ∀ st : TimerState, st.id ≤ (createTicks k calls st).2.id := by
  induction calls with
  | nil => intro st; simp [createTicks]
  | cons c rest ih =>
    intro st
    simp only [createTicks]
    exact le_trans (CreateTick_id_mono k c.1 c.2 st) (ih _)

theorem stateAfter_append (k : SigNums) (calls more : List (Int × Timescale)) :
    stateAfter k (calls ++ more) = (createTicks k more (stateAfter k calls)).2 := by
  simp only [stateAfter, createTicks_append]

theorem stateAfter_254_calls (k : SigNums) :
    (stateAfter k (List.replicate 254 (1, Timescale.TIMESCALE_eSECONDS))).id = 254 := by
  have hnz : ∀ c ∈ List.replicate 254 ((1 : Int), Timescale.TIMESCALE_eSECONDS),
      (tickInterval c.1 c.2).1 ≠ 0 ∨ (tickInterval c.1 c.2).2 ≠ 0 := by
    intro c hc
    rw [List.eq_of_mem_replicate hc]
    left
    decide
  have h2 := (createTicks_all_succeed k _ hnz TimerState.fresh
    (by rw [List.length_replicate]; decide)).2
  rw [List.length_replicate] at h2
  unfold stateAfter
  rw [h2]
  decide

/-- C16: after any finite sequence of `CreateTick` calls, whatever their
arguments, the counter `id` lies in `0 .. 254`; a further call, and any further
sequence of calls, does not decrease it; a further call either fails and does
not touch the table, or returns a value in `1 .. 254` and writes the table at
that index only, which is within the 255 slots; and once the counter is 254
every later call returns -1 and the counter stays 254. -/
theorem CreateTick_counter_and_index_bounds (k : SigNums)
    (calls more : List (Int × Timescale)) (num : Int) (ts : Timescale) :
    (0 ≤ (stateAfter k calls).id ∧ (stateAfter k calls).id ≤ 254) ∧
    ((stateAfter k calls).id ≤ (CreateTick k num ts (stateAfter k calls)).2.id) ∧
    ((stateAfter k calls).id ≤ (stateAfter k (calls ++ more)).id) ∧
    (((CreateTick k num ts (stateAfter k calls)).1 = -1 ∧
        (CreateTick k num ts (stateAfter k calls)).2.timers = (stateAfter k calls).timers) ∨
      (1 ≤ (CreateTick k num ts (stateAfter k calls)).1 ∧
        (CreateTick k num ts (stateAfter k calls)).1 ≤ 254 ∧
        (stateAfter k calls).timers.length = 255 ∧
        ((CreateTick k num ts (stateAfter k calls)).1).toNat
          < (stateAfter k calls).timers.length ∧
        ∃ timer : OsTimer,
          (CreateTick k num ts (stateAfter k calls)).2.timers
            = (stateAfter k calls).timers.set
                ((CreateTick k num ts (stateAfter k calls)).1).toNat (some timer))) ∧
    ((CreateTick k num ts (stateAfter k calls)).1 ≠ -1 →
      1 ≤ (CreateTick k num ts (stateAfter k calls)).1 ∧
      (CreateTick k num ts (stateAfter k calls)).1 ≤ 254) ∧
    ((stateAfter k calls).id = 254 →
      (∀ r ∈ (createTicks k more (stateAfter k calls)).1, r = -1) ∧
      (createTicks k more (stateAfter k calls)).2.id = 254) := by
  obtain ⟨h0, h1, hlen, -⟩ := stateAfter_inv k calls
  have h1' : (stateAfter k calls).id < 255 := h1
  have hcase :
      ((CreateTick k num ts (stateAfter k calls)).1 = -1 ∧
        (CreateTick k num ts (stateAfter k calls)).2.timers = (stateAfter k calls).timers) ∨
      (1 ≤ (CreateTick k num ts (stateAfter k calls)).1 ∧
        (CreateTick k num ts (stateAfter k calls)).1 ≤ 254 ∧
        (stateAfter k calls).timers.length = 255 ∧
        ((CreateTick k num ts (stateAfter k calls)).1).toNat
          < (stateAfter k calls).timers.length ∧
        ∃ timer : OsTimer,
          (CreateTick k num ts (stateAfter k calls)).2.timers
            = (stateAfter k calls).timers.set
                ((CreateTick k num ts (stateAfter k calls)).1).toNat (some timer)) := by
    by_cases hroom : (stateAfter k calls).id + 1 < MAX_TIMERS
    · have hroom' : (stateAfter k calls).id + 1 < 255 := hroom
      by_cases hnz : (tickInterval num ts).1 ≠ 0 ∨ (tickInterval num ts).2 ≠ 0
      · obtain ⟨e1, -, e3⟩ := CreateTick_nonzero k num ts _ hroom hnz
        right
        rw [e1]
        exact ⟨by omega, by omega, hlen, by rw [hlen]; omega, _, e3⟩
      · have hz : (tickInterval num ts).1 = 0 ∧ (tickInterval num ts).2 = 0 := by
          constructor
          · by_contra h; exact hnz (Or.inl h)
          · by_contra h; exact hnz (Or.inr h)
        left
        rw [CreateTick_zero k num ts _ hroom hz]
        exact ⟨rfl, rfl⟩
    · left
      rw [CreateTick_full k num ts _ hroom]
      exact ⟨rfl, rfl⟩
  refine ⟨⟨h0, by omega⟩, CreateTick_id_mono k num ts _, ?_, hcase, ?_, ?_⟩
  · rw [stateAfter_append]
    exact createTicks_id_mono k more _
  · intro hne
    rcases hcase with ⟨hfail, -⟩ | ⟨ha, hb, -⟩
    · exact absurd hfail hne
    · exact ⟨ha, hb⟩
  · intro h254
    have hfull : ¬ (stateAfter k calls).id + 1 < MAX_TIMERS := by
      rw [h254]; decide
    obtain ⟨hall, hsame⟩ := createTicks_full k more _ hfull
    exact ⟨hall, by rw [hsame, h254]⟩

theorem CreateTick_counter_and_index_bounds_witness :
    ((stateAfter linuxSigNums (List.replicate 254 (1, Timescale.TIMESCALE_eSECONDS))).id
      = 254) ∧
    (∀ r ∈ (createTicks linuxSigNums
          [(7, Timescale.TIMESCALE_eDAYS), (0, Timescale.TIMESCALE_eSECONDS)]
          (stateAfter linuxSigNums
            (List.replicate 254 (1, Timescale.TIMESCALE_eSECONDS)))).1, r = -1) ∧
    (createTicks linuxSigNums
        [(7, Timescale.TIMESCALE_eDAYS), (0, Timescale.TIMESCALE_eSECONDS)]
        (stateAfter linuxSigNums
          (List.replicate 254 (1, Timescale.TIMESCALE_eSECONDS)))).2.id = 254 :=
  ⟨stateAfter_254_calls linuxSigNums,
   (CreateTick_counter_and_index_bounds linuxSigNums
      (List.replicate 254 (1, Timescale.TIMESCALE_eSECONDS))
      [(7, Timescale.TIMESCALE_eDAYS), (0, Timescale.TIMESCALE_eSECONDS)]
      0 Timescale.TIMESCALE_eSECONDS).2.2.2.2.2 (stateAfter_254_calls linuxSigNums)⟩

end Engine
